import Mathlib

/-!
Shallow embedding of the Clarity activity-tracking engine
(src/background/service-worker.ts, src/db/utils.ts, src/db/database.ts,
and the dashboard import/filter logic).

Encoding conventions:
* Instants are integer milliseconds since the Unix epoch (`Int`).
* A calendar-day key (the `YYYY-MM-DD` string produced by
  `toISOString().split("T")[0]`) is encoded as the UTC day number
  `t.fdiv 86400000`; the encoding is order- and equality-faithful.
* The host timezone enters only through `Date.prototype.setHours`, which
  works on the local clock; it is modelled by an explicit offset `off`
  (milliseconds east of UTC, so local clock = UTC instant + off).
* JavaScript `Math.floor(x / 1000)` on integers is `Int.fdiv` (floor
  division, also correct for negative differences).
* Fallible storage writes are modelled by explicit success flags; a failed
  write leaves the store untouched and skips the rest of the `try` block,
  exactly as the thrown exception does in the source.
* IndexedDB rows carry an auto-increment `id` that is never read by the
  engine; it is omitted.  Upsert-by-unique-index (`{...existing, ...row}`
  followed by `put`) replaces the row with the given unique key.
-/

namespace Clarity

def msPerDay : Int := 86400000

/-- Day key `getTodayDate` (src/db/utils.ts): `new Date().toISOString().split("T")[0]`,
the UTC calendar day of the instant, encoded as a day number. -/
def getTodayDate (t : Int) : Int := t.fdiv msPerDay

/-- The instant at which the UTC day key `getTodayDate` starts. -/
def utcDayStart (t : Int) : Int := t.fdiv msPerDay * msPerDay

/-- Local midnight `d.setHours(0,0,0,0)`: the start (local midnight) of the local calendar
day containing instant `t`, for a host whose local clock is UTC + `off`. -/
def localDayStart (off t : Int) : Int := (t + off).fdiv msPerDay * msPerDay - off

/-- The `todayMidnight` computed in `saveCurrentSession`:
`new Date(today)` parses the day string as UTC midnight `today * msPerDay`,
then `setHours(0,0,0,0)` moves to the local day start. -/
def rolloverMidnight (off today : Int) : Int := localDayStart off (today * msPerDay)

/-- Alarm instant `getNextMidnight` (service-worker.ts): `setHours(24,0,0,0)`,
the next local midnight after `now`. -/
def getNextMidnight (off now : Int) : Int := localDayStart off now + msPerDay

/-- Row of the `websiteActivity` store (unique index on (date, domain)). -/
structure ActivityRow where
  date : Int
  domain : String
  faviconUrl : Option String
  timeSpent : Int
  visitCount : Int
  lastVisit : Int
  deriving Repr, DecidableEq

/-- Row of the `dailyActivity` store (unique index on date). -/
structure DailyRow where
  date : Int
  totalTime : Int
  websiteCount : Int
  deriving Repr, DecidableEq

/-- Row of the `websiteTimers` store (unique index on domain). -/
structure TimerRow where
  domain : String
  timeLimit : Int
  enabled : Bool
  deriving Repr, DecidableEq

/-- Row of the `blockedWebsites` store. -/
structure BlockedRow where
  id : Int
  urlPattern : String
  dateAdded : Int
  deriving Repr, DecidableEq

/-- The singleton `settings` row. -/
structure SettingsModel where
  reminderEnabled : Bool
  reminderThresholds : Option (List Int)
  deriving Repr, DecidableEq

/-- The in-memory `currentSession` of the service worker
(`tabId` is only used for tab reloads, an external side effect). -/
structure Session where
  domain : Option String
  startTime : Option Int
  faviconUrl : Option String
  isNewVisit : Bool
  sessionDate : Option Int
  deriving Repr, DecidableEq

/-- The two stores written by the session tracker.  `daily` is keyed by
date; the other stores are read or written by separate components and are
passed to those functions directly. -/
structure DBState where
  websites : List ActivityRow
  daily : Int → Option DailyRow

/-- JavaScript truthiness of a nullable string (`null`, `undefined` and
`""` are falsy). -/
def jsTruthyStr : Option String → Bool
  | none => false
  | some s => s ≠ ""

/-- JavaScript truthiness of a nullable number (`null`, `undefined` and
`0` are falsy). -/
def jsTruthyInt : Option Int → Bool
  | none => false
  | some n => n ≠ 0

/-- JavaScript `a || b || null` on nullable strings. -/
def jsOrFav (a b : Option String) : Option String :=
  if jsTruthyStr a then a else if jsTruthyStr b then b else none

/-- Lookup `db.getWebsiteActivity(date, domain)`: lookup by the unique
(date, domain) index. -/
def getW (l : List ActivityRow) (d : Int) (dom : String) : Option ActivityRow :=
  l.find? (fun r => r.date == d && r.domain == dom)

/-- Upsert `db.saveWebsiteActivity`: upsert by the unique (date, domain) index;
`{...existing, ...activity}` overwrites every tracked field. -/
def upsertW : List ActivityRow → ActivityRow → List ActivityRow
  | [], a => [a]
  | r :: rs, a =>
    if r.date == a.date && r.domain == a.domain then a :: rs else r :: upsertW rs a

/-- Read `db.getWebsiteActivitiesForDate(date)`: all rows of one date. -/
def actsFor (l : List ActivityRow) (d : Int) : List ActivityRow :=
  l.filter (fun r => r.date == d)

/-- Sum `dailyActivities.reduce((sum, a) => sum + a.timeSpent, 0)`. -/
def sumT (l : List ActivityRow) : Int :=
  l.foldl (fun s a => s + a.timeSpent) 0

/-- The write-then-recompute step used twice in `saveCurrentSession`:
upsert an activity row, then recompute that date's `DailyRow` as the
sum/count over all of that date's activity rows (`db.saveDailyActivity`). -/
def writeAndRecompute (db : DBState) (a : ActivityRow) : DBState :=
  let ws := upsertW db.websites a
  let acts := actsFor ws a.date
  { websites := ws
    daily := fun x =>
      if x = a.date then some ⟨a.date, sumT acts, acts.length⟩ else db.daily x }

/-- The `notificationTracker`: domain to set of thresholds already
notified, modelled as an association list of duplicate-free lists. -/
abbrev Tracker : Type := List (String × List Int)

def getSent (tr : Tracker) (d : String) : List Int :=
  ((tr.find? (fun p => p.1 == d)).map (fun p => p.2)).getD []

def setSent : Tracker → String → List Int → Tracker
  | [], d, s => [(d, s)]
  | p :: ps, d, s => if p.1 == d then (d, s) :: ps else p :: setSent ps d s

def memT (tr : Tracker) (d : String) (θ : Int) : Bool :=
  (getSent tr d).contains θ

/-- Flush `saveCurrentSession` (service-worker.ts lines 152-266).
Arguments: `off` the local-clock offset, `rollOk` whether the
previous-day write of the rollover branch succeeds, `mainOk` whether the
main `saveWebsiteActivity` write succeeds, `now` the single `Date.now()`
instant of this tick, `idle` the `isUserIdle` flag.
Returns the updated session, stores and notification tracker.
`checkTimerLimit` and `updateBlockingRules` read but never write these
stores, so they contribute no state change here. -/
def saveCurrentSession (off : Int) (rollOk mainOk : Bool) (now : Int) (idle : Bool)
    (sess : Session) (db : DBState) (tr : Tracker) : Session × DBState × Tracker :=
  if idle then (sess, db, tr)
  else if !(jsTruthyStr sess.domain && jsTruthyInt sess.startTime) then (sess, db, tr)
  else
    let dom := sess.domain.getD ""
    let st0 := sess.startTime.getD 0
    let today := getTodayDate now
    -- day-rollover branch: `sessionDate && sessionDate !== today`
    let rolled : Session × DBState × Tracker :=
      match sess.sessionDate with
      | some sd =>
        if sd ≠ today then
          let m := rolloverMidnight off today
          let tum := (m - st0).fdiv 1000
          let db1 :=
            if 0 < tum ∧ rollOk then
              let existing := getW db.websites sd dom
              writeAndRecompute db
                { date := sd
                  domain := dom
                  faviconUrl := jsOrFav sess.faviconUrl (existing.bind (fun e => e.faviconUrl))
                  timeSpent := ((existing.map (fun e => e.timeSpent)).getD 0) + tum
                  visitCount := ((existing.map (fun e => e.visitCount)).getD 0) +
                    (if sess.isNewVisit then 1 else 0)
                  lastVisit := m - 1 }
            else db
          -- session restarts at midnight; notification tracker is cleared
          ({ sess with startTime := some m, sessionDate := some today, isNewVisit := true },
            db1, ([] : Tracker))
        else (sess, db, tr)
      | none => (sess, db, tr)
    let sess1 := rolled.1
    let db1 := rolled.2.1
    let tr1 := rolled.2.2
    let st1 := sess1.startTime.getD st0
    let elapsed := (now - st1).fdiv 1000
    if elapsed < 1 then (sess1, db1, tr1)
    else if mainOk then
      let existing := getW db1.websites today dom
      let db2 := writeAndRecompute db1
        { date := today
          domain := dom
          faviconUrl := jsOrFav sess1.faviconUrl (existing.bind (fun e => e.faviconUrl))
          timeSpent := ((existing.map (fun e => e.timeSpent)).getD 0) + elapsed
          visitCount := ((existing.map (fun e => e.visitCount)).getD 0) +
            (if sess1.isNewVisit then 1 else 0)
          lastVisit := now }
      ({ sess1 with isNewVisit := false, startTime := some now }, db2, tr1)
    else
      -- write threw: `isNewVisit` and the stores keep their values, but the
      -- trailing `currentSession.startTime = Date.now()` still runs
      ({ sess1 with startTime := some now }, db1, tr1)

/-- The cleared `currentSession` (`stopTracking`, and the initial value). -/
def emptySession : Session :=
  { domain := none, startTime := none, faviconUrl := none,
    isNewVisit := false, sessionDate := none }

/-- Combined tracker-visible state of the service worker. -/
structure Engine where
  sess : Session
  db : DBState
  tracker : Tracker

/-- Stop tracking `stopTracking`: flush, then clear the session. -/
def stopTracking (off : Int) (now : Int) (e : Engine) : Engine :=
  let r := saveCurrentSession off true true now false e.sess e.db e.tracker
  ⟨emptySession, r.2.1, r.2.2⟩

/-- Start tracking `startTracking` on a trackable URL: flush the previous session, then
open a fresh one on the derived `domain` with `startTime = now`,
`isNewVisit = true` and `sessionDate = today`.  (On an internal or
new-tab URL the source instead runs `stopTracking`, which is the `stop`
operation below.) -/
def startTracking (off : Int) (now : Int) (dom : String) (fav : Option String)
    (e : Engine) : Engine :=
  let r := saveCurrentSession off true true now false e.sess e.db e.tracker
  ⟨{ domain := some dom, startTime := some now, faviconUrl := fav,
     isNewVisit := true, sessionDate := some (getTodayDate now) }, r.2.1, r.2.2⟩

/-- The operations of the session tracker, each stamped with its
`Date.now()` instant; `flush` is the periodic `saveActivity` alarm. -/
inductive Op where
  | start (dom : String) (fav : Option String) (now : Int)
  | stop (now : Int)
  | flush (now : Int)

def stepOp (off : Int) (e : Engine) : Op → Engine
  | .start dom fav now => startTracking off now dom fav e
  | .stop now => stopTracking off now e
  | .flush now =>
    let r := saveCurrentSession off true true now false e.sess e.db e.tracker
    ⟨r.1, r.2.1, r.2.2⟩

def initEngine : Engine :=
  ⟨emptySession, ⟨[], fun _ => none⟩, ([] : Tracker)⟩

def runOps (off : Int) (ops : List Op) (e : Engine) : Engine :=
  ops.foldl (stepOp off) e

/-- Derived-table consistency: for every date, the stored `DailyRow`
totals match the sum and count over that date's activity rows (an absent
`DailyRow` counts as zero). -/
def dailyTotalOf (db : DBState) (d : Int) : Int :=
  ((db.daily d).map (fun r => r.totalTime)).getD 0

def dailyCountOf (db : DBState) (d : Int) : Int :=
  ((db.daily d).map (fun r => r.websiteCount)).getD 0

/-- The derived-table consistency invariant at one date: the stored daily
totals equal the recomputed sum and count over that date's rows. -/
def InvAt (db : DBState) (d : Int) : Prop :=
  dailyTotalOf db d = sumT (actsFor db.websites d) ∧
  dailyCountOf db d = ((actsFor db.websites d).length : Int)

-- ==================== rule compiler ====================

/-- Whether `hay` starts with `pat` (character lists). -/
def startsWithL : List Char → List Char → Bool
  | [], _ => true
  | _ :: _, [] => false
  | p :: ps, h :: hs => p == h && startsWithL ps hs

/-- Whether `hay` contains `pat` as a contiguous substring. -/
def containsL (pat : List Char) : List Char → Bool
  | [] => startsWithL pat []
  | c :: t => startsWithL pat (c :: t) || containsL pat t

/-- JavaScript `s.includes(p)`. -/
def strContains (s p : String) : Bool := containsL p.data s.data

/-- Lowercasing as done by `.toLowerCase()` on ASCII patterns and domains (Char.toLower maps
A-Z; other characters pass through). -/
def strToLower (s : String) : String := String.mk (s.data.map Char.toLower)

inductive RuleReason where
  | parental
  | timer
  deriving Repr, DecidableEq

/-- A compiled `declarativeNetRequest` redirect rule: priority 1, redirect
to the extension's blocked page, condition `urlFilter = *pattern*` on
main-frame requests. -/
structure NetRule where
  id : Int
  reason : RuleReason
  pattern : String
  deriving Repr, DecidableEq

/-- Check whether rule `r` intercepts a navigation to `url`:
`urlFilter = *pattern*` matches any URL containing the pattern. -/
def ruleMatches (r : NetRule) (url : String) : Bool :=
  strContains url r.pattern

/-- One iteration of the blocked-websites loop of `updateBlockingRules`. -/
def blockStep (acc : Int × List NetRule) (b : BlockedRow) : Int × List NetRule :=
  (acc.1 + 1, acc.2 ++ [⟨acc.1, RuleReason.parental, strToLower b.urlPattern⟩])

/-- One iteration of the timers loop of `updateBlockingRules`. -/
def timerStep (activities : List ActivityRow) (acc : Int × List NetRule)
    (t : TimerRow) : Int × List NetRule :=
  if t.enabled then
    match activities.find? (fun a => a.domain == t.domain) with
    | some a =>
      if t.timeLimit ≤ a.timeSpent then
        (acc.1 + 1, acc.2 ++ [⟨acc.1, RuleReason.timer, t.domain⟩])
      else acc
    | none => acc
  else acc

/-- The pure core of `updateBlockingRules` (service-worker.ts lines
74-147): one redirect rule per blocked pattern, then one per enabled
timer whose domain has a today-activity row with `timeSpent >= timeLimit`;
ids count up from 1.  The compiled list replaces the entire installed
rule set. -/
def compileRules (blocked : List BlockedRow) (timers : List TimerRow)
    (activities : List ActivityRow) : List NetRule :=
  (timers.foldl (timerStep activities) (blocked.foldl blockStep (1, []))).2

/-- The (reason, pattern) key of a compiled rule (ids depend on list
position and carry no semantics). -/
def keyOf (r : NetRule) : RuleReason × String := (r.reason, r.pattern)

/-- The emission condition of the timers loop: enabled, and the first
today-row of the domain exists with `timeSpent >= timeLimit`. -/
def timerCond (activities : List ActivityRow) (t : TimerRow) : Bool :=
  t.enabled &&
    (match activities.find? (fun a => a.domain == t.domain) with
     | some a => t.timeLimit ≤ a.timeSpent
     | none => false)

/-- Today's `timeSpent` for a domain exactly as `updateBlockingRules`
reads it: the first matching row, defaulting to 0. -/
def spentFor (activities : List ActivityRow) (d : String) : Int :=
  (((activities.find? (fun a => a.domain == d))).map (fun a => a.timeSpent)).getD 0

/-- Upsert `db.saveTimer` by the unique domain index. -/
def saveTimer : List TimerRow → TimerRow → List TimerRow
  | [], t => [t]
  | r :: rs, t => if r.domain == t.domain then t :: rs else r :: saveTimer rs t

/-- The `UPDATE_TIMER` message handler: save the timer, refresh the cache,
recompile the rules.  The recompilation therefore reads the updated
timer table. -/
def handleUpdateTimer (blocked : List BlockedRow) (timers : List TimerRow)
    (activities : List ActivityRow) (t : TimerRow) : List TimerRow × List NetRule :=
  let timers1 := saveTimer timers t
  (timers1, compileRules blocked timers1 activities)

/-- Delete `db.deleteBlockedWebsite(id)`. -/
def deleteBlockedWebsite (l : List BlockedRow) (id : Int) : List BlockedRow :=
  l.filter (fun b => !(b.id == id))

/-- The dashboard's today-stats filter (`loadTodayStats`): drop a website
from the chart when some blocked pattern contains its domain or its
domain contains the pattern (both lowercased). -/
def dashFilterKeep (blockedDomains : List String) (w : ActivityRow) : Bool :=
  !(blockedDomains.any (fun b =>
      strContains (strToLower w.domain) b || strContains b (strToLower w.domain)))

def dashFilter (blockedDomains : List String) (websites : List ActivityRow) :
    List ActivityRow :=
  websites.filter (dashFilterKeep blockedDomains)

-- ==================== notification threshold tracker ====================

/-- Inner loop of `checkAndSendNotifications` over the configured
thresholds for one activity row: emit a notification and record the
threshold when `timeSpent >= threshold` and it is not yet recorded.
The accumulator carries (sent-set for this domain, emitted (domain,
threshold) pairs so far). -/
def thresholdStep (dom : String) (timeSpent : Int)
    (p : List Int × List (String × Int)) (θ : Int) : List Int × List (String × Int) :=
  if θ ≤ timeSpent && !(p.1.contains θ) then (p.1 ++ [θ], p.2 ++ [(dom, θ)]) else p

/-- Outer loop of `checkAndSendNotifications` over today's activity rows:
read (or create empty) the domain's sent-set, run the thresholds, store
the updated set back in the tracker. -/
def activityStep (thresholds : List Int) (acc : Tracker × List (String × Int))
    (a : ActivityRow) : Tracker × List (String × Int) :=
  let res := thresholds.foldl (thresholdStep a.domain a.timeSpent) (getSent acc.1 a.domain, acc.2)
  (setSent acc.1 a.domain res.1, res.2)

/-- Check `checkAndSendNotifications` (service-worker.ts lines 298-333): no-op
unless settings exist with `reminderEnabled` and a thresholds array;
otherwise walk today's activities and thresholds, returning the updated
tracker and the list of notifications emitted (`chrome.notifications`
calls), in order. -/
def checkNotif (settings : Option SettingsModel) (activities : List ActivityRow)
    (tr : Tracker) : Tracker × List (String × Int) :=
  match settings with
  | none => (tr, [])
  | some s =>
    if !s.reminderEnabled then (tr, [])
    else
      match s.reminderThresholds with
      | none => (tr, [])
      | some thresholds => activities.foldl (activityStep thresholds) (tr, [])

/-- A run of periodic notification checks: each tick reads the settings
and today's activities afresh. -/
def runChecks (inputs : List (Option SettingsModel × List ActivityRow))
    (tr : Tracker) : Tracker × List (String × Int) :=
  inputs.foldl (fun acc i =>
    let r := checkNotif i.1 i.2 acc.1
    (r.1, acc.2 ++ r.2)) (tr, [])

/-- The `UPDATE_SETTINGS` message handler (service-worker.ts lines
599-610): save the settings, and when the payload enables reminders run
`checkAndSendNotifications` immediately.  The notification tracker itself
is not touched by the save. -/
def handleUpdateSettings (payload : SettingsModel) (activities : List ActivityRow)
    (tr : Tracker) : Tracker × List (String × Int) :=
  if payload.reminderEnabled then checkNotif (some payload) activities tr
  else (tr, [])

-- ==================== idle/focus coordinator ====================

inductive IdleSignal where
  | idleSig
  | lockedSig
  | activeSig

/-- The `chrome.idle.onStateChanged` listener (service-worker.ts lines
474-499).  On `idle`/`locked` it sets `isUserIdle` first and only then
calls `saveCurrentSession` (whose first guard returns immediately while
idle), then resets `startTime` to now; on `active` it clears the flag and
resets `startTime` to now.  Returns (isUserIdle, session, stores,
tracker). -/
def onIdleStateChanged (off : Int) (rollOk mainOk : Bool) (now : Int)
    (sig : IdleSignal) (_idle : Bool) (sess : Session) (db : DBState) (tr : Tracker) :
    Bool × Session × DBState × Tracker :=
  match sig with
  | .idleSig | .lockedSig =>
    let r := saveCurrentSession off rollOk mainOk now true sess db tr
    let s1 := r.1
    let s2 := if jsTruthyStr s1.domain && jsTruthyInt s1.startTime then
        { s1 with startTime := some now } else s1
    (true, s2, r.2.1, r.2.2)
  | .activeSig =>
    let s1 := if jsTruthyStr sess.domain then { sess with startTime := some now } else sess
    (false, s1, db, tr)

-- ==================== export / import ====================

/-- A full snapshot of every stored table, as serialized by export. -/
structure FullDB where
  dailyActivity : List DailyRow
  websiteActivity : List ActivityRow
  websiteTimers : List TimerRow
  blockedWebsites : List BlockedRow
  settings : Option SettingsModel
  deriving Repr, DecidableEq

/-- A parsed snapshot document; `version` and `data` may be absent. -/
structure SnapshotDoc where
  version : Option Int
  data : Option FullDB
  deriving Repr, DecidableEq

/-- Modelled from the spec: `db.importAllData` is not among the sources
(only its caller `handleImport` in the dashboard is); per the spec it
replaces local state table-by-table with the snapshot's `data`. -/
def importAllData (d : FullDB) (_db : FullDB) : FullDB := d

/-- Import `handleImport` (dashboard): validate that both `data` and `version`
are present before calling `db.importAllData`; on a validation failure
the error is surfaced and no table is touched.  Returns the resulting
stores and the error message, if any. -/
def handleImport (doc : SnapshotDoc) (db : FullDB) : FullDB × Option String :=
  if !(doc.data.isSome && doc.version.isSome) then
    (db, some "Invalid backup file format")
  else
    match doc.data with
    | some d => (importAllData d db, none)
    | none => (db, some "Invalid backup file format")

-- ==================== supporting lemmas ====================

theorem getW_upsertW_same (l : List ActivityRow) (a : ActivityRow) :
    getW (upsertW l a) a.date a.domain = some a := by
  induction l with
  | nil => simp [upsertW, getW, List.find?]
  | cons r rs ih =>
    by_cases h : (r.date == a.date && r.domain == a.domain) = true
    · simp [upsertW, h, getW, List.find?]
    · simp only [upsertW, h, if_false, getW, List.find?] at ih ⊢
      exact ih

theorem getW_upsertW_other (l : List ActivityRow) (a : ActivityRow) (d : Int) (dom : String)
    (h : d ≠ a.date ∨ dom ≠ a.domain) :
    getW (upsertW l a) d dom = getW l d dom := by
  have key : (a.date == d && a.domain == dom) = false := by
    rcases h with h | h <;> simp [Bool.and_eq_false_iff, beq_eq_false_iff_ne] <;> tauto
  induction l with
  | nil => simp [upsertW, getW, List.find?, key]
  | cons r rs ih =>
    by_cases hr : (r.date == a.date && r.domain == a.domain) = true
    · have hrk : (r.date == d && r.domain == dom) = false := by
        simp only [Bool.and_eq_true, beq_iff_eq] at hr
        rcases h with h | h <;> simp [Bool.and_eq_false_iff, beq_eq_false_iff_ne, hr.1, hr.2] <;> tauto
      simp [upsertW, hr, getW, List.find?, key, hrk]
    · simp only [upsertW, hr, if_false, getW, List.find?] at ih ⊢
      cases hc : (r.date == d && r.domain == dom) <;> simp [hc, ih]

theorem getW_upsertW_keyed (l : List ActivityRow) (a : ActivityRow) (d : Int)
    (dom : String) (hd : a.date = d) (hdo : a.domain = dom) :
    getW (upsertW l a) d dom = some a := by
  subst hd hdo
  exact getW_upsertW_same l a

-- ==================== claim theorems ====================

/-- C8: if a flush observes elapsed time below 1 second (e.g. the second
of two flushes in immediate succession on the same day), it performs no
storage write and leaves the session, the stores and the notification
tracker exactly as they were. -/
theorem c8_subsecond_flush_noop (off : Int) (rollOk mainOk : Bool) (now : Int)
    (sess : Session) (db : DBState) (tr : Tracker) (dom : String) (st : Int)
    (hdom : sess.domain = some dom) (hdne : dom ≠ "")
    (hst : sess.startTime = some st) (hstne : st ≠ 0)
    (hday : sess.sessionDate = some (getTodayDate now))
    (helap : (now - st).fdiv 1000 < 1) :
    saveCurrentSession off rollOk mainOk now false sess db tr = (sess, db, tr) := by
  simp [saveCurrentSession, hdom, hst, hday, hdne, hstne, jsTruthyStr, jsTruthyInt, helap]

/-- C8 witness: a flush at t=5600 over a session whose interval started
at t=5000 (600 ms elapsed) writes nothing and changes nothing. -/
theorem c8_subsecond_flush_noop_witness :
    (⟨some "a.com", some 5000, none, false, some 0⟩ : Session).sessionDate
        = some (getTodayDate 5600) ∧
    saveCurrentSession 0 true true 5600 false
        ⟨some "a.com", some 5000, none, false, some 0⟩ ⟨[], fun _ => none⟩ [] =
      (⟨some "a.com", some 5000, none, false, some 0⟩, ⟨[], fun _ => none⟩, []) := by
  refine ⟨by decide, ?_⟩
  exact c8_subsecond_flush_noop 0 true true 5600 _ _ _ "a.com" 5000
    rfl (by decide) rfl (by decide) (by decide) (by decide)

/-- C9: importing a snapshot document lacking `version` or `data` is
rejected with an error and no stored table is changed. -/
theorem c9_import_rejects_unversioned (doc : SnapshotDoc) (db : FullDB)
    (h : doc.version = none ∨ doc.data = none) :
    handleImport doc db = (db, some "Invalid backup file format") := by
  rcases h with h | h <;> simp [handleImport, h]

/-- C9 witness: a snapshot with tables but no `version` is rejected and a
populated database keeps all five tables. -/
theorem c9_import_rejects_unversioned_witness :
    handleImport ⟨none, some ⟨[⟨0, 7, 1⟩], [], [], [], none⟩⟩
        ⟨[⟨3, 60, 2⟩], [⟨3, "a.com", none, 60, 2, 99⟩], [⟨"a.com", 10, true⟩],
          [⟨1, "shop", 0⟩], some ⟨true, some [1800]⟩⟩ =
      (⟨[⟨3, 60, 2⟩], [⟨3, "a.com", none, 60, 2, 99⟩], [⟨"a.com", 10, true⟩],
          [⟨1, "shop", 0⟩], some ⟨true, some [1800]⟩⟩,
        some "Invalid backup file format") :=
  c9_import_rejects_unversioned _ _ (Or.inl rfl)

/-- C2 (code bug): the idle/locked transition never persists the elapsed
time of the active session.  The listener sets `isUserIdle` before
calling `saveCurrentSession`, whose first guard returns immediately while
idle, so the stores are unchanged for every input (first conjunct), and
in the concrete run with 20 s accumulated the session's `startTime` is
reset to now with nothing written (second and third conjuncts) — the
code's own comment says this call is meant to save the session first. -/
theorem c2_idle_signal_drops_elapsed_time :
    (∀ (off : Int) (rollOk mainOk : Bool) (now : Int) (idle : Bool) (sess : Session)
        (db : DBState) (tr : Tracker),
      (onIdleStateChanged off rollOk mainOk now .idleSig idle sess db tr).2.2.1 = db) ∧
    ((onIdleStateChanged 0 true true 1020000 .idleSig false
        ⟨some "example.com", some 1000000, none, true, some 0⟩
        ⟨[], fun _ => none⟩ []).2.2.1.websites = []) ∧
    ((onIdleStateChanged 0 true true 1020000 .idleSig false
        ⟨some "example.com", some 1000000, none, true, some 0⟩
        ⟨[], fun _ => none⟩ []).2.1.startTime = some 1020000) := by
  refine ⟨fun off rollOk mainOk now idle sess db tr => rfl, rfl, by decide⟩

/-- C1 counterexample: with a failing storage write at now=6000 over a
session interval started at 1000, the flush still resets `startTime` to
6000, so the in-memory session is not left unchanged as claimed. -/
theorem c1_counterexample_starttime_reset :
    (saveCurrentSession 0 true false 6000 false
        ⟨some "a.com", some 1000, none, true, some 0⟩ ⟨[], fun _ => none⟩ []).1.startTime ≠
      (⟨some "a.com", some 1000, none, true, some 0⟩ : Session).startTime := by
  decide

/-- C1 (amended): when the storage write of the WebsiteActivity row
fails, the stores, the notification tracker and `isNewVisit` are left
unchanged, but `startTimestamp` is reset to now regardless of success, so
the elapsed interval is dropped rather than re-accumulated on the next
flush (at-most-once, not at-least-once). -/
theorem c1_failed_write_drops_interval (off : Int) (rollOk : Bool) (now : Int)
    (sess : Session) (db : DBState) (tr : Tracker) (dom : String) (st : Int)
    (hdom : sess.domain = some dom) (hdne : dom ≠ "")
    (hst : sess.startTime = some st) (hstne : st ≠ 0)
    (hday : sess.sessionDate = some (getTodayDate now))
    (helap : 1 ≤ (now - st).fdiv 1000) :
    saveCurrentSession off rollOk false now false sess db tr =
      ({ sess with startTime := some now }, db, tr) := by
  simp [saveCurrentSession, hdom, hst, hday, hdne, hstne, jsTruthyStr, jsTruthyInt,
    Int.not_lt.mpr helap]

/-- C1 witness: concrete failing flush (now=6000, interval started at
1000, 5 s elapsed): the row store stays empty, `isNewVisit` stays true,
and `startTime` becomes 6000. -/
theorem c1_failed_write_drops_interval_witness :
    (⟨some "a.com", some 1000, none, true, some 0⟩ : Session).sessionDate
        = some (getTodayDate 6000) ∧
    saveCurrentSession 0 true false 6000 false
        ⟨some "a.com", some 1000, none, true, some 0⟩ ⟨[], fun _ => none⟩ [] =
      (⟨some "a.com", some 6000, none, true, some 0⟩, ⟨[], fun _ => none⟩, []) := by
  refine ⟨by decide, ?_⟩
  exact c1_failed_write_drops_interval 0 true 6000 _ _ _ "a.com" 1000
    rfl (by decide) rfl (by decide) (by decide) (by decide)

/-- C10: the day key under which time is recorded (`getTodayDate`) is the
UTC date: it changes exactly at instants divisible by a UTC day (first
conjunct); the rollover midnight and the `midnightReset` alarm instant
are local midnights, each sitting exactly `off` before a UTC day
boundary, where `off` is the local-clock offset (second and third
conjuncts); and for realistic offsets the local day boundaries coincide
with the UTC day-key boundaries exactly when the offset is zero (fourth
conjunct). -/
theorem c10_utc_key_vs_local_midnight :
    (∀ t : Int, getTodayDate t ≠ getTodayDate (t - 1) ↔ t % msPerDay = 0) ∧
    (∀ off d : Int, (rolloverMidnight off d + off) % msPerDay = 0) ∧
    (∀ off now : Int, (getNextMidnight off now + off) % msPerDay = 0) ∧
    (∀ off : Int, -msPerDay < off → off < msPerDay →
      ((∀ t, localDayStart off t = utcDayStart t) ↔ off = 0)) := by
  have hD : (0 : Int) ≤ 86400000 := by norm_num
  refine ⟨?_, ?_, ?_, ?_⟩
  · intro t
    simp only [getTodayDate, msPerDay, Int.fdiv_eq_ediv _ hD]
    omega
  · intro off d
    simp only [rolloverMidnight, localDayStart, msPerDay, Int.fdiv_eq_ediv _ hD]
    omega
  · intro off now
    simp only [getNextMidnight, localDayStart, msPerDay, Int.fdiv_eq_ediv _ hD]
    omega
  · intro off h1 h2
    constructor
    · intro h
      have h0 := h 0
      simp only [localDayStart, utcDayStart, msPerDay, Int.fdiv_eq_ediv _ hD] at h0
      simp only [msPerDay] at h1 h2
      omega
    · intro h
      subst h
      intro t
      simp [localDayStart, utcDayStart]

/-- C10 witness: concrete instances — the key changes at the first UTC
midnight; for offset UTC+1 the rollover midnight of day 1 and the reset
alarm sit 3600000 ms before a UTC boundary; and at offset UTC+1 the
boundary-coincidence equivalence is the (false) statement 3600000 = 0. -/
theorem c10_utc_key_vs_local_midnight_witness :
    (getTodayDate 86400000 ≠ getTodayDate (86400000 - 1) ↔
      (86400000 : Int) % msPerDay = 0) ∧
    ((rolloverMidnight 3600000 1 + 3600000) % msPerDay = 0) ∧
    ((getNextMidnight (-18000000) 1000 + (-18000000)) % msPerDay = 0) ∧
    ((∀ t, localDayStart 3600000 t = utcDayStart t) ↔ (3600000 : Int) = 0) :=
  ⟨c10_utc_key_vs_local_midnight.1 86400000,
   c10_utc_key_vs_local_midnight.2.1 3600000 1,
   c10_utc_key_vs_local_midnight.2.2.1 (-18000000) 1000,
   c10_utc_key_vs_local_midnight.2.2.2 3600000 (by decide) (by decide)⟩

/-- C3: a flush that observes a changed day splits the session at the
computed midnight `m`: the slice from `startTimestamp` to `m` goes to the
previous day's row with `lastVisit = m - 1`, the slice from `m` to now
goes to the new day's row with `lastVisit = now`, and (the session being
on its first flush, `isNewVisit = true`) each of the two rows has its
`visitCount` incremented by exactly one; the session then continues from
`now` on the new day. -/
theorem c3_midnight_split (off now : Int) (sess : Session) (db : DBState)
    (tr : Tracker) (dom : String) (st sd m : Int)
    (prevOld todayOld : Option ActivityRow)
    (hdom : sess.domain = some dom) (hdne : dom ≠ "")
    (hst : sess.startTime = some st) (hstne : st ≠ 0)
    (hday : sess.sessionDate = some sd) (hnew : sess.isNewVisit = true)
    (hsd : sd ≠ getTodayDate now)
    (hm : m = rolloverMidnight off (getTodayDate now))
    (hprev : prevOld = getW db.websites sd dom)
    (htoday : todayOld = getW db.websites (getTodayDate now) dom)
    (htum : 0 < (m - st).fdiv 1000)
    (helap : 1 ≤ (now - m).fdiv 1000) :
    getW (saveCurrentSession off true true now false sess db tr).2.1.websites sd dom =
      some { date := sd, domain := dom
             faviconUrl := jsOrFav sess.faviconUrl (prevOld.bind (fun e => e.faviconUrl))
             timeSpent := ((prevOld.map (fun e => e.timeSpent)).getD 0) + (m - st).fdiv 1000
             visitCount := ((prevOld.map (fun e => e.visitCount)).getD 0) + 1
             lastVisit := m - 1 } ∧
    getW (saveCurrentSession off true true now false sess db tr).2.1.websites
        (getTodayDate now) dom =
      some { date := getTodayDate now, domain := dom
             faviconUrl := jsOrFav sess.faviconUrl (todayOld.bind (fun e => e.faviconUrl))
             timeSpent := ((todayOld.map (fun e => e.timeSpent)).getD 0) + (now - m).fdiv 1000
             visitCount := ((todayOld.map (fun e => e.visitCount)).getD 0) + 1
             lastVisit := now } ∧
    (saveCurrentSession off true true now false sess db tr).1 =
      { domain := some dom, startTime := some now, faviconUrl := sess.faviconUrl
        isNewVisit := false, sessionDate := some (getTodayDate now) } := by
  subst hm hprev htoday
  simp only [saveCurrentSession, hdom, hst, hday, hnew, jsTruthyStr, jsTruthyInt,
    writeAndRecompute, Bool.not_eq_true]
  simp [hdne, hstne, hsd, htum, Int.not_lt.mpr helap]
  have hsd2 := Ne.symm hsd
  simp [getW_upsertW_keyed, getW_upsertW_other, hsd, hsd2]

/-- C3 witness: a session opened 10 s before the first UTC midnight
(isNewVisit still true) flushed 10 s after it, over empty stores: day 0
gets the row (10 s, 1 visit, lastVisit = midnight - 1), day 1 gets the
row (10 s, 1 visit, lastVisit = now), and the session continues from now
on day 1. -/
theorem c3_midnight_split_witness :
    ((0 : Int) ≠ getTodayDate 86410000) ∧
    ((0 : Int) < (rolloverMidnight 0 (getTodayDate 86410000) - 86390000).fdiv 1000) ∧
    (1 ≤ (86410000 - rolloverMidnight 0 (getTodayDate 86410000)).fdiv 1000) ∧
    (getW (saveCurrentSession 0 true true 86410000 false
        ⟨some "news.example", some 86390000, none, true, some 0⟩
        ⟨[], fun _ => none⟩ []).2.1.websites 0 "news.example"
      = some ⟨0, "news.example", none, 10, 1, 86399999⟩) ∧
    (getW (saveCurrentSession 0 true true 86410000 false
        ⟨some "news.example", some 86390000, none, true, some 0⟩
        ⟨[], fun _ => none⟩ []).2.1.websites (getTodayDate 86410000) "news.example"
      = some ⟨1, "news.example", none, 10, 1, 86410000⟩) ∧
    ((saveCurrentSession 0 true true 86410000 false
        ⟨some "news.example", some 86390000, none, true, some 0⟩
        ⟨[], fun _ => none⟩ []).1
      = ⟨some "news.example", some 86410000, none, false, some 1⟩) := by
  have h := c3_midnight_split 0 86410000
    ⟨some "news.example", some 86390000, none, true, some 0⟩ ⟨[], fun _ => none⟩ []
    "news.example" 86390000 0 86400000 none none
    rfl (by decide) rfl (by decide) rfl rfl (by decide) (by decide) rfl rfl
    (by decide) (by decide)
  exact ⟨by decide, by decide, by decide, h.1, h.2.1, h.2.2⟩

theorem actsFor_upsertW_other (l : List ActivityRow) (a : ActivityRow) (d : Int)
    (h : d ≠ a.date) : actsFor (upsertW l a) d = actsFor l d := by
  have ha : (a.date == d) = false := by simp [beq_eq_false_iff_ne]; exact fun hc => h hc.symm
  induction l with
  | nil => simp [upsertW, actsFor, ha]
  | cons r rs ih =>
    by_cases hr : (r.date == a.date && r.domain == a.domain) = true
    · have hrd : (r.date == d) = false := by
        simp only [Bool.and_eq_true, beq_iff_eq] at hr
        simp [beq_eq_false_iff_ne, hr.1]
        exact fun hc => h hc.symm
      simp [upsertW, hr, actsFor, ha, hrd]
    · simp only [upsertW, hr, if_false]
      simp only [actsFor, List.filter] at ih ⊢
      cases hc : (r.date == d) <;> simp [hc, ih]

theorem invAt_writeAndRecompute (db : DBState) (a : ActivityRow) (d : Int)
    (h : InvAt db d) : InvAt (writeAndRecompute db a) d := by
  by_cases hd : d = a.date
  · subst hd
    constructor <;> simp [writeAndRecompute, dailyTotalOf, dailyCountOf]
  · constructor <;>
      simp [writeAndRecompute, dailyTotalOf, dailyCountOf, hd,
        actsFor_upsertW_other db.websites a d hd] <;> [exact h.1; exact h.2]

theorem getD_getD (o : Option Int) (x : Int) : o.getD (o.getD x) = o.getD x := by
  cases o <;> rfl

theorem save_db_invAt (off : Int) (rOk mOk : Bool) (now : Int) (idle : Bool)
    (sess : Session) (db : DBState) (tr : Tracker) (d : Int) (h : InvAt db d) :
    InvAt (saveCurrentSession off rOk mOk now idle sess db tr).2.1 d := by
  by_cases hi : idle = true
  · simpa [saveCurrentSession, hi] using h
  by_cases hT : (jsTruthyStr sess.domain && jsTruthyInt sess.startTime) = true
  case neg => simpa [saveCurrentSession, hi, hT] using h
  rcases hs : sess.sessionDate with _ | sd
  · by_cases hE : (now - sess.startTime.getD 0).fdiv 1000 < 1
    · simpa [saveCurrentSession, hi, hT, hs, getD_getD, hE] using h
    by_cases hm : mOk = true
    · simpa [saveCurrentSession, hi, hT, hs, getD_getD, hE, hm] using
        invAt_writeAndRecompute db _ d h
    · simpa [saveCurrentSession, hi, hT, hs, getD_getD, hE, hm] using h
  by_cases hsd : sd = getTodayDate now
  · by_cases hE : (now - sess.startTime.getD 0).fdiv 1000 < 1
    · simpa [saveCurrentSession, hi, hT, hs, hsd, getD_getD, hE] using h
    by_cases hm : mOk = true
    · simpa [saveCurrentSession, hi, hT, hs, hsd, getD_getD, hE, hm] using
        invAt_writeAndRecompute db _ d h
    · simpa [saveCurrentSession, hi, hT, hs, hsd, getD_getD, hE, hm] using h
  · have hsd2 : sd ≠ getTodayDate now := hsd
    by_cases hroll : (0 < (rolloverMidnight off (getTodayDate now) -
        sess.startTime.getD 0).fdiv 1000 ∧ rOk = true)
    · by_cases hE : (now - rolloverMidnight off (getTodayDate now)).fdiv 1000 < 1
      · simpa [saveCurrentSession, hi, hT, hs, hsd2, hroll, hE] using
          invAt_writeAndRecompute db _ d h
      by_cases hm : mOk = true
      · simpa [saveCurrentSession, hi, hT, hs, hsd2, hroll, hE, hm] using
          invAt_writeAndRecompute _ _ d (invAt_writeAndRecompute db _ d h)
      · simpa [saveCurrentSession, hi, hT, hs, hsd2, hroll, hE, hm] using
          invAt_writeAndRecompute db _ d h
    · by_cases hE : (now - rolloverMidnight off (getTodayDate now)).fdiv 1000 < 1
      · simpa [saveCurrentSession, hi, hT, hs, hsd2, hroll, hE] using h
      by_cases hm : mOk = true
      · simpa [saveCurrentSession, hi, hT, hs, hsd2, hroll, hE, hm] using
          invAt_writeAndRecompute db _ d h
      · simpa [saveCurrentSession, hi, hT, hs, hsd2, hroll, hE, hm] using h

theorem invAt_stepOp (off : Int) (e : Engine) (op : Op) (d : Int) (h : InvAt e.db d) :
    InvAt (stepOp off e op).db d := by
  cases op with
  | start dom fav now => exact save_db_invAt off true true now false e.sess e.db e.tracker d h
  | stop now => exact save_db_invAt off true true now false e.sess e.db e.tracker d h
  | flush now => exact save_db_invAt off true true now false e.sess e.db e.tracker d h

theorem invAt_runOps (off : Int) (ops : List Op) (e : Engine) (d : Int)
    (h : InvAt e.db d) : InvAt (runOps off ops e).db d := by
  induction ops generalizing e with
  | nil => exact h
  | cons op rest ih => exact ih (stepOp off e op) (invAt_stepOp off e op d h)

/-- C4: after any completed sequence of start/stop/flush operations from
the initial empty state (each flush finishing without a crash or write
failure), for every date the stored DailyActivity totals match the
WebsiteActivity rows: totalTime equals the sum of timeSpent over the rows
of that date, and websiteCount equals their number. -/
theorem c4_daily_matches_websites (off : Int) (ops : List Op) (d : Int) :
    dailyTotalOf (runOps off ops initEngine).db d =
      sumT (actsFor (runOps off ops initEngine).db.websites d) ∧
    dailyCountOf (runOps off ops initEngine).db d =
      ((actsFor (runOps off ops initEngine).db.websites d).length : Int) :=
  invAt_runOps off ops initEngine d
    (by constructor <;> simp [initEngine, dailyTotalOf, dailyCountOf, actsFor, sumT])

theorem blockFold_keys (bs : List BlockedRow) (n : Int) (rs : List NetRule) :
    ((bs.foldl blockStep (n, rs)).2).map keyOf =
      rs.map keyOf ++ bs.map (fun b => (RuleReason.parental, strToLower b.urlPattern)) := by
  induction bs generalizing n rs with
  | nil => simp
  | cons b tl ih =>
    simp only [List.foldl, List.map]
    rw [ih]
    simp [blockStep, keyOf]

theorem timerFold_keys (activities : List ActivityRow) (ts : List TimerRow)
    (n : Int) (rs : List NetRule) :
    ((ts.foldl (timerStep activities) (n, rs)).2).map keyOf =
      rs.map keyOf ++
        (ts.filter (timerCond activities)).map (fun t => (RuleReason.timer, t.domain)) := by
  induction ts generalizing n rs with
  | nil => simp
  | cons t tl ih =>
    simp only [List.foldl]
    by_cases he : t.enabled = true
    · rcases hf : activities.find? (fun a => a.domain == t.domain) with _ | a
      · rw [show timerStep activities (n, rs) t = (n, rs) by simp [timerStep, he, hf]]
        rw [ih]
        simp [timerCond, he, hf]
      · by_cases hle : t.timeLimit ≤ a.timeSpent
        · rw [show timerStep activities (n, rs) t =
              (n + 1, rs ++ [⟨n, RuleReason.timer, t.domain⟩]) by simp [timerStep, he, hf, hle]]
          rw [ih]
          simp [timerCond, he, hf, hle, keyOf]
        · rw [show timerStep activities (n, rs) t = (n, rs) by simp [timerStep, he, hf, hle]]
          rw [ih]
          simp [timerCond, he, hf, hle]
    · rw [show timerStep activities (n, rs) t = (n, rs) by simp [timerStep, he]]
      rw [ih]
      simp [timerCond, he]

theorem compileRules_keys (blocked : List BlockedRow) (timers : List TimerRow)
    (activities : List ActivityRow) :
    (compileRules blocked timers activities).map keyOf =
      blocked.map (fun b => (RuleReason.parental, strToLower b.urlPattern)) ++
        (timers.filter (timerCond activities)).map (fun t => (RuleReason.timer, t.domain)) := by
  unfold compileRules
  rw [timerFold_keys]
  congr 1
  have h := blockFold_keys blocked 1 []
  simpa using h

theorem spentFor_of_find (activities : List ActivityRow) (d : String) (a : ActivityRow)
    (h : activities.find? (fun x => x.domain == d) = some a) :
    spentFor activities d = a.timeSpent := by
  simp [spentFor, h]

/-- C5: rule compilation emits a timer (redirect-on-main-frame) rule with
pattern `d` iff some timer for `d` is enabled and today's recorded
timeSpent for `d` (0 when no row exists) is at least its limit, provided
all limits are positive; every compiled rule is either a block-pattern
rule or such a timer rule (no rule for untouched domains); and concretely,
after UPDATE_TIMER(news.example, 60, enabled) with 90 s of activity the
set contains a rule matching news.example and none for other domains. -/
theorem c5_timer_rule_iff (blocked : List BlockedRow) (timers : List TimerRow)
    (activities : List ActivityRow)
    (hpos : ∀ t ∈ timers, 0 < t.timeLimit) :
    (∀ d : String,
      (∃ r ∈ compileRules blocked timers activities,
          r.reason = RuleReason.timer ∧ r.pattern = d) ↔
      (∃ t ∈ timers, t.domain = d ∧ t.enabled = true ∧
          t.timeLimit ≤ spentFor activities d)) ∧
    (∀ r ∈ compileRules blocked timers activities,
      (r.reason = RuleReason.parental ∧ ∃ b ∈ blocked, r.pattern = strToLower b.urlPattern) ∨
      (r.reason = RuleReason.timer ∧ ∃ t ∈ timers, t.domain = r.pattern ∧
          t.enabled = true ∧ t.timeLimit ≤ spentFor activities r.pattern)) ∧
    ((∃ r ∈ (handleUpdateTimer [] [] [⟨0, "news.example", none, 90, 1, 0⟩]
          ⟨"news.example", 60, true⟩).2,
        r.reason = RuleReason.timer ∧ r.pattern = "news.example") ∧
      (∀ r ∈ (handleUpdateTimer [] [] [⟨0, "news.example", none, 90, 1, 0⟩]
          ⟨"news.example", 60, true⟩).2, r.pattern = "news.example")) := by
  refine ⟨?_, ?_, by decide⟩
  · intro d
    constructor
    · rintro ⟨r, hr, hreason, hpat⟩
      have hk : keyOf r ∈ (compileRules blocked timers activities).map keyOf :=
        List.mem_map_of_mem _ hr
      rw [compileRules_keys] at hk
      rcases List.mem_append.mp hk with hk | hk
      · rcases List.mem_map.mp hk with ⟨b, _, hb⟩
        rw [keyOf] at hb
        have h1 := (Prod.mk.injEq _ _ _ _).mp hb
        rw [hreason] at h1
        exact absurd h1.1 (by decide)
      · rcases List.mem_map.mp hk with ⟨t, htf, ht⟩
        rcases List.mem_filter.mp htf with ⟨htmem, htcond⟩
        rw [keyOf] at ht
        have hdom : t.domain = r.pattern := (Prod.mk.injEq _ _ _ _).mp ht |>.2
        rw [timerCond] at htcond
        rcases Bool.and_eq_true _ _ |>.mp htcond with ⟨hen, hcond2⟩
        rcases hf : activities.find? (fun a => a.domain == t.domain) with _ | a
        · rw [hf] at hcond2
          simp at hcond2
        · rw [hf] at hcond2
          simp only [decide_eq_true_eq] at hcond2
          refine ⟨t, htmem, by rw [hdom, hpat], hen, ?_⟩
          rw [← hpat, ← hdom, spentFor_of_find activities t.domain a hf]
          exact hcond2
    · rintro ⟨t, ht, hdom, hen, hle⟩
      rcases hf : activities.find? (fun a => a.domain == t.domain) with _ | a
      · exfalso
        have : spentFor activities d = 0 := by
          rw [← hdom]
          simp [spentFor, hf]
        rw [this] at hle
        exact absurd (lt_of_lt_of_le (hpos t ht) hle) (lt_irrefl 0)
      · have hcond : timerCond activities t = true := by
          rw [timerCond, hf]
          simp only [Bool.and_eq_true, decide_eq_true_eq]
          refine ⟨hen, ?_⟩
          have h2 := spentFor_of_find activities t.domain a hf
          rw [hdom] at h2
          rw [← h2]
          exact hle
        have hkey : (RuleReason.timer, t.domain) ∈
            (compileRules blocked timers activities).map keyOf := by
          rw [compileRules_keys]
          refine List.mem_append.mpr (Or.inr ?_)
          exact List.mem_map.mpr ⟨t, List.mem_filter.mpr ⟨ht, hcond⟩, rfl⟩
        rcases List.mem_map.mp hkey with ⟨r, hr, hkr⟩
        rw [keyOf] at hkr
        have h1 := (Prod.mk.injEq _ _ _ _).mp hkr
        exact ⟨r, hr, h1.1, by rw [h1.2, hdom]⟩
  · intro r hr
    have hk : keyOf r ∈ (compileRules blocked timers activities).map keyOf :=
      List.mem_map_of_mem _ hr
    rw [compileRules_keys] at hk
    rcases List.mem_append.mp hk with hk | hk
    · rcases List.mem_map.mp hk with ⟨b, hb, hbe⟩
      rw [keyOf] at hbe
      have h1 := (Prod.mk.injEq _ _ _ _).mp hbe
      exact Or.inl ⟨h1.1.symm, b, hb, h1.2.symm⟩
    · rcases List.mem_map.mp hk with ⟨t, htf, hte⟩
      rcases List.mem_filter.mp htf with ⟨htmem, htcond⟩
      rw [keyOf] at hte
      have h1 := (Prod.mk.injEq _ _ _ _).mp hte
      rw [timerCond] at htcond
      rcases Bool.and_eq_true _ _ |>.mp htcond with ⟨hen, hcond2⟩
      rcases hf : activities.find? (fun a => a.domain == t.domain) with _ | a
      · rw [hf] at hcond2
        simp at hcond2
      · rw [hf] at hcond2
        simp only [decide_eq_true_eq] at hcond2
        refine Or.inr ⟨h1.1.symm, t, htmem, h1.2, hen, ?_⟩
        rw [← h1.2, spentFor_of_find activities t.domain a hf]
        exact hcond2

/-- C5 witness: with the single enabled timer (news.example, 60 s) and a
today row of 90 s, the compiled set has a timer rule for news.example,
matching the iff instance, and after UPDATE_TIMER the set contains that
rule and rules for no other domain. -/
theorem c5_timer_rule_iff_witness :
    ((∃ r ∈ compileRules [] ([⟨"news.example", 60, true⟩] : List TimerRow)
          ([⟨0, "news.example", none, 90, 1, 0⟩] : List ActivityRow),
        r.reason = RuleReason.timer ∧ r.pattern = "news.example") ↔
      (∃ t ∈ ([⟨"news.example", 60, true⟩] : List TimerRow),
        t.domain = "news.example" ∧ t.enabled = true ∧
          t.timeLimit ≤ spentFor ([⟨0, "news.example", none, 90, 1, 0⟩] : List ActivityRow)
            "news.example")) ∧
    ((∃ r ∈ (handleUpdateTimer [] [] [⟨0, "news.example", none, 90, 1, 0⟩]
          ⟨"news.example", 60, true⟩).2,
        r.reason = RuleReason.timer ∧ r.pattern = "news.example") ∧
      (∀ r ∈ (handleUpdateTimer [] [] [⟨0, "news.example", none, 90, 1, 0⟩]
          ⟨"news.example", 60, true⟩).2, r.pattern = "news.example")) := by
  have h := c5_timer_rule_iff [] ([⟨"news.example", 60, true⟩] : List TimerRow)
    ([⟨0, "news.example", none, 90, 1, 0⟩] : List ActivityRow) (by decide)
  exact ⟨h.1 "news.example", h.2.2⟩

theorem startsWithL_iff (p h : List Char) :
    startsWithL p h = true ↔ ∃ t, p ++ t = h := by
  induction p generalizing h with
  | nil => simp [startsWithL]
  | cons a as ih =>
    cases h with
    | nil => simp [startsWithL]
    | cons c hs =>
      simp only [startsWithL, Bool.and_eq_true, beq_iff_eq, ih, List.cons_append,
        List.cons.injEq]
      constructor
      · rintro ⟨h1, t, h2⟩
        exact ⟨t, h1, h2⟩
      · rintro ⟨t, h1, h2⟩
        exact ⟨h1, t, h2⟩

theorem containsL_iff (pat l : List Char) :
    containsL pat l = true ↔ ∃ s t, s ++ pat ++ t = l := by
  induction l with
  | nil =>
    simp only [containsL, startsWithL_iff]
    constructor
    · rintro ⟨t, h⟩
      exact ⟨[], t, by simpa using h⟩
    · rintro ⟨s, t, h⟩
      rcases List.append_eq_nil.mp h with ⟨h1, h2⟩
      rcases List.append_eq_nil.mp h1 with ⟨h3, h4⟩
      exact ⟨t, by simp [h4, h2]⟩
  | cons c ls ih =>
    simp only [containsL, Bool.or_eq_true, startsWithL_iff, ih]
    constructor
    · rintro (⟨t, h⟩ | ⟨s, t, h⟩)
      · exact ⟨[], t, by simpa using h⟩
      · exact ⟨c :: s, t, by simp [h]⟩
    · rintro ⟨s, t, h⟩
      cases s with
      | nil => exact Or.inl ⟨t, by simpa using h⟩
      | cons x xs =>
        simp only [List.cons_append, List.cons.injEq] at h
        exact Or.inr ⟨xs, t, h.2⟩

theorem strContains_trans (a b c : String) (h1 : strContains a b = true)
    (h2 : strContains b c = true) : strContains a c = true := by
  rw [strContains, containsL_iff] at h1 h2 ⊢
  rcases h1 with ⟨s, t, hst⟩
  rcases h2 with ⟨u, v, huv⟩
  refine ⟨s ++ u, v ++ t, ?_⟩
  rw [← hst, ← huv]
  simp [List.append_assoc]

/-- C6 counterexample: "b" is a substring of the blocked pattern "ab.c"
(containment in the claimed second direction), yet the compiled rule set
contains no rule matching a navigation to domain "b": the installed
urlFilter only matches URLs that contain the pattern. -/
theorem c6_counterexample_contained_domain_not_blocked :
    (strContains "ab.c" "b" = true) ∧
    ¬ (∃ r ∈ compileRules [⟨1, "ab.c", 0⟩] [] [],
        ruleMatches r "https://b/" = true) := by
  decide

/-- C6 (amended): a blocked pattern produces a redirect rule intercepting
exactly the navigations whose URL contains the (lowercased) pattern —
hence any domain containing the pattern, by substring transitivity
(second conjunct); the either-direction containment test lives only in
the dashboard's stats filter (third conjunct); and concretely "shop"
produces a rule matching online-shop.test while removing the pattern
removes the rule on the next compilation (fourth conjunct). -/
theorem c6_block_rules_substring (blocked : List BlockedRow) (timers : List TimerRow)
    (activities : List ActivityRow) :
    (∀ b ∈ blocked, ∀ url : String, strContains url (strToLower b.urlPattern) = true →
      ∃ r ∈ compileRules blocked timers activities, ruleMatches r url = true) ∧
    (∀ url D P : String, strContains url D = true → strContains D P = true →
      strContains url P = true) ∧
    (∀ (bs : List String) (ws : List ActivityRow) (w : ActivityRow),
      w ∈ dashFilter bs ws ↔ w ∈ ws ∧
        ¬ ∃ b ∈ bs, (strContains (strToLower w.domain) b = true ∨
            strContains b (strToLower w.domain) = true)) ∧
    ((∃ r ∈ compileRules [⟨1, "shop", 0⟩] [] [],
        ruleMatches r "https://online-shop.test/" = true) ∧
      (compileRules (deleteBlockedWebsite [⟨1, "shop", 0⟩] 1) [] [] = [])) := by
  refine ⟨?_, ?_, ?_, by decide⟩
  · intro b hb url hurl
    have hkey : (RuleReason.parental, strToLower b.urlPattern) ∈
        (compileRules blocked timers activities).map keyOf := by
      rw [compileRules_keys]
      exact List.mem_append.mpr (Or.inl (List.mem_map.mpr ⟨b, hb, rfl⟩))
    rcases List.mem_map.mp hkey with ⟨r, hr, hkr⟩
    rw [keyOf] at hkr
    have h1 := (Prod.mk.injEq _ _ _ _).mp hkr
    refine ⟨r, hr, ?_⟩
    rw [ruleMatches, h1.2]
    exact hurl
  · exact fun url D P h1 h2 => strContains_trans url D P h1 h2
  · intro bs ws w
    rw [dashFilter, List.mem_filter]
    simp [dashFilterKeep, List.any_eq_true]

/-- C6 witness: the amended theorem at the single pattern "shop": the rule
matches a navigation to online-shop.test; the transitivity instance for
(url, online-shop.test, shop); the dashboard-filter characterization at
the online-shop.test row; and removal empties the rule set. -/
theorem c6_block_rules_substring_witness :
    (∃ r ∈ compileRules [⟨1, "shop", 0⟩] [] [],
        ruleMatches r "https://online-shop.test/" = true) ∧
    (strContains "https://online-shop.test/" "shop" = true) ∧
    ((⟨0, "online-shop.test", none, 5, 1, 0⟩ : ActivityRow) ∈
        dashFilter ["shop"] [⟨0, "online-shop.test", none, 5, 1, 0⟩] ↔
      (⟨0, "online-shop.test", none, 5, 1, 0⟩ : ActivityRow) ∈
          ([⟨0, "online-shop.test", none, 5, 1, 0⟩] : List ActivityRow) ∧
        ¬ ∃ b ∈ ["shop"],
          (strContains (strToLower "online-shop.test") b = true ∨
            strContains b (strToLower "online-shop.test") = true)) ∧
    (compileRules (deleteBlockedWebsite [⟨1, "shop", 0⟩] 1) [] [] = []) := by
  have h := c6_block_rules_substring [⟨1, "shop", 0⟩] [] []
  refine ⟨h.1 ⟨1, "shop", 0⟩ (by decide) "https://online-shop.test/" (by decide), ?_, ?_,
    h.2.2.2.2⟩
  · exact h.2.1 "https://online-shop.test/" "online-shop.test" "shop" (by decide) (by decide)
  · exact h.2.2.1 ["shop"] [⟨0, "online-shop.test", none, 5, 1, 0⟩]
      ⟨0, "online-shop.test", none, 5, 1, 0⟩

theorem thrFold_sent_mono (dom : String) (spent : Int) (ths : List Int)
    (sent : List Int) (ems : List (String × Int)) (θ : Int)
    (h : sent.contains θ = true) :
    ((ths.foldl (thresholdStep dom spent) (sent, ems)).1).contains θ = true := by
  induction ths generalizing sent ems with
  | nil => exact h
  | cons t tl ih =>
    simp only [List.foldl]
    by_cases hc : (t ≤ spent ∧ t ∉ sent)
    · rw [show thresholdStep dom spent (sent, ems) t = (sent ++ [t], ems ++ [(dom, t)]) by
        simp [thresholdStep, hc.1, hc.2]]
      exact ih (sent ++ [t]) _ (by simp; exact Or.inl (by simpa using h))
    · rw [show thresholdStep dom spent (sent, ems) t = (sent, ems) by
        simp only [thresholdStep, ite_eq_right_iff]
        intro hcc
        exact absurd (by simpa using hcc) hc]
      exact ih sent ems h

theorem thrFold_ems_mono (dom : String) (spent : Int) (ths : List Int)
    (sent : List Int) (ems : List (String × Int)) (x : String × Int)
    (h : x ∈ ems) :
    x ∈ (ths.foldl (thresholdStep dom spent) (sent, ems)).2 := by
  induction ths generalizing sent ems with
  | nil => exact h
  | cons t tl ih =>
    simp only [List.foldl]
    by_cases hc : (t ≤ spent ∧ t ∉ sent)
    · rw [show thresholdStep dom spent (sent, ems) t = (sent ++ [t], ems ++ [(dom, t)]) by
        simp [thresholdStep, hc.1, hc.2]]
      exact ih (sent ++ [t]) _ (by simp; exact Or.inl h)
    · rw [show thresholdStep dom spent (sent, ems) t = (sent, ems) by
        simp only [thresholdStep, ite_eq_right_iff]
        intro hcc
        exact absurd (by simpa using hcc) hc]
      exact ih sent ems h

theorem thresholdStep_eq_pos (dom : String) (spent : Int) (sent : List Int)
    (ems : List (String × Int)) (t : Int) (hc : t ≤ spent ∧ t ∉ sent) :
    thresholdStep dom spent (sent, ems) t = (sent ++ [t], ems ++ [(dom, t)]) := by
  simp [thresholdStep, hc.1, hc.2]

theorem thresholdStep_eq_neg (dom : String) (spent : Int) (sent : List Int)
    (ems : List (String × Int)) (t : Int) (hc : ¬(t ≤ spent ∧ t ∉ sent)) :
    thresholdStep dom spent (sent, ems) t = (sent, ems) := by
  simp only [thresholdStep, ite_eq_right_iff]
  intro hcc
  exact absurd (by simpa using hcc) hc

theorem thrFold_count_other (dom : String) (spent : Int) (ths : List Int)
    (d : String) (θ : Int) (h : d ≠ dom) (sent : List Int)
    (ems : List (String × Int)) :
    ((ths.foldl (thresholdStep dom spent) (sent, ems)).2).count (d, θ) =
      ems.count (d, θ) := by
  induction ths generalizing sent ems with
  | nil => rfl
  | cons t tl ih =>
    simp only [List.foldl]
    by_cases hc : (t ≤ spent ∧ t ∉ sent)
    · rw [thresholdStep_eq_pos dom spent sent ems t hc]
      rw [ih (sent ++ [t]) (ems ++ [(dom, t)])]
      have hne : ((d, θ) : String × Int) ≠ (dom, t) := by
        intro hcontra
        exact h (((Prod.mk.injEq _ _ _ _).mp hcontra).1)
      simp [hne]
    · rw [thresholdStep_eq_neg dom spent sent ems t hc]
      exact ih sent ems

theorem thrFold_count_same (dom : String) (spent : Int) (ths : List Int)
    (θ : Int) (sent : List Int) (ems : List (String × Int)) :
    ((ths.foldl (thresholdStep dom spent) (sent, ems)).2).count (dom, θ) +
      (if θ ∈ sent then 1 else 0) ≤
    ems.count (dom, θ) +
      (if θ ∈ (ths.foldl (thresholdStep dom spent) (sent, ems)).1 then 1 else 0) := by
  induction ths generalizing sent ems with
  | nil => exact le_refl _
  | cons t tl ih =>
    simp only [List.foldl]
    by_cases hc : (t ≤ spent ∧ t ∉ sent)
    · simp only [thresholdStep_eq_pos dom spent sent ems t hc]
      have ihh := ih (sent ++ [t]) (ems ++ [(dom, t)])
      by_cases ht : t = θ
      · subst ht
        rw [if_neg hc.2]
        rw [if_pos (by simp : t ∈ sent ++ [t])] at ihh
        rw [show (ems ++ [(dom, t)]).count (dom, t) = ems.count (dom, t) + 1 by simp] at ihh
        omega
      · have hne : ((dom, θ) : String × Int) ≠ (dom, t) := by
          intro hcontra
          exact ht (((Prod.mk.injEq _ _ _ _).mp hcontra).2.symm)
        rw [show (ems ++ [(dom, t)]).count (dom, θ) = ems.count (dom, θ) by simp [hne]] at ihh
        rw [show (if θ ∈ sent ++ [t] then 1 else 0) = (if θ ∈ sent then 1 else 0) by
          simp [Ne.symm ht]] at ihh
        exact ihh
    · simp only [thresholdStep_eq_neg dom spent sent ems t hc]
      exact ih sent ems

theorem getSent_setSent_same (tr : Tracker) (d : String) (s : List Int) :
    getSent (setSent tr d s) d = s := by
  induction tr with
  | nil => simp [setSent, getSent, List.find?]
  | cons p ps ih =>
    by_cases hp : (p.1 == d) = true
    · simp [setSent, hp, getSent, List.find?]
    · simp only [setSent, hp, if_false]
      simp only [getSent, List.find?, hp] at ih ⊢
      exact ih

theorem getSent_setSent_other (tr : Tracker) (d d2 : String) (s : List Int)
    (h : d2 ≠ d) : getSent (setSent tr d s) d2 = getSent tr d2 := by
  have hd : ((d : String) == d2) = false := by simp [h, Ne.symm h]
  induction tr with
  | nil => simp [setSent, getSent, List.find?, hd]
  | cons p ps ih =>
    by_cases hp : (p.1 == d) = true
    · have hp2 : (p.1 == d2) = false := by
        simp only [beq_iff_eq] at hp
        simp [hp, Ne.symm h]
      simp [setSent, hp, getSent, List.find?, hd, hp2]
    · simp only [setSent, hp, if_false]
      cases hq : (p.1 == d2)
      · simp only [getSent, List.find?, hq] at ih ⊢
        exact ih
      · simp [getSent, List.find?, hq]

theorem actFold_count (ths : List Int) (acts : List ActivityRow) (d : String)
    (θ : Int) (tr : Tracker) (ems : List (String × Int)) :
    ((acts.foldl (activityStep ths) (tr, ems)).2).count (d, θ) +
      (if θ ∈ getSent tr d then 1 else 0) ≤
    ems.count (d, θ) +
      (if θ ∈ getSent ((acts.foldl (activityStep ths) (tr, ems)).1) d then 1 else 0) := by
  induction acts generalizing tr ems with
  | nil => exact le_refl _
  | cons a tl ih =>
    simp only [List.foldl, activityStep]
    by_cases hd : d = a.domain
    · subst hd
      have hinner := thrFold_count_same a.domain a.timeSpent ths θ (getSent tr a.domain) ems
      have ihh := ih (setSent tr a.domain
          (ths.foldl (thresholdStep a.domain a.timeSpent) (getSent tr a.domain, ems)).1)
        (ths.foldl (thresholdStep a.domain a.timeSpent) (getSent tr a.domain, ems)).2
      rw [getSent_setSent_same] at ihh
      omega
    · have hinner := thrFold_count_other a.domain a.timeSpent ths d θ hd
        (getSent tr a.domain) ems
      have ihh := ih (setSent tr a.domain
          (ths.foldl (thresholdStep a.domain a.timeSpent) (getSent tr a.domain, ems)).1)
        (ths.foldl (thresholdStep a.domain a.timeSpent) (getSent tr a.domain, ems)).2
      rw [getSent_setSent_other _ _ _ _ hd] at ihh
      omega

theorem checkNotif_count (s : Option SettingsModel) (acts : List ActivityRow)
    (tr : Tracker) (d : String) (θ : Int) :
    ((checkNotif s acts tr).2).count (d, θ) + (if θ ∈ getSent tr d then 1 else 0) ≤
      (if θ ∈ getSent (checkNotif s acts tr).1 d then 1 else 0) := by
  rcases s with _ | s
  · simp [checkNotif]
  · rcases he : s.reminderEnabled with _ | _
    · simp [checkNotif, he]
    · rcases hths : s.reminderThresholds with _ | ths
      · simp [checkNotif, he, hths]
      · have h := actFold_count ths acts d θ tr []
        simp only [checkNotif, he, hths, List.count_nil] at h ⊢
        simpa using h

theorem runChecks_count_aux (inputs : List (Option SettingsModel × List ActivityRow))
    (d : String) (θ : Int) (tr : Tracker) (ems : List (String × Int)) :
    ((inputs.foldl (fun acc i =>
        ((checkNotif i.1 i.2 acc.1).1, acc.2 ++ (checkNotif i.1 i.2 acc.1).2))
      (tr, ems)).2).count (d, θ) + (if θ ∈ getSent tr d then 1 else 0) ≤
    ems.count (d, θ) +
      (if θ ∈ getSent ((inputs.foldl (fun acc i =>
          ((checkNotif i.1 i.2 acc.1).1, acc.2 ++ (checkNotif i.1 i.2 acc.1).2))
        (tr, ems)).1) d then 1 else 0) := by
  induction inputs generalizing tr ems with
  | nil => exact le_refl _
  | cons i tl ih =>
    simp only [List.foldl]
    have hone := checkNotif_count i.1 i.2 tr d θ
    have ihh := ih (checkNotif i.1 i.2 tr).1 (ems ++ (checkNotif i.1 i.2 tr).2)
    rw [List.count_append] at ihh
    omega

theorem memT_true_iff (tr : Tracker) (d : String) (θ : Int) :
    memT tr d θ = true ↔ θ ∈ getSent tr d := by
  simp [memT]

theorem thrFold_sent_mono_mem (dom : String) (spent : Int) (ths : List Int)
    (sent : List Int) (ems : List (String × Int)) (θ : Int) (h : θ ∈ sent) :
    θ ∈ (ths.foldl (thresholdStep dom spent) (sent, ems)).1 := by
  have := thrFold_sent_mono dom spent ths sent ems θ (by simpa using h)
  simpa using this

theorem thrFold_new_sent_emitted (dom : String) (spent : Int) (ths : List Int)
    (sent : List Int) (ems : List (String × Int)) (θ : Int)
    (h : θ ∈ (ths.foldl (thresholdStep dom spent) (sent, ems)).1) :
    θ ∈ sent ∨ (dom, θ) ∈ (ths.foldl (thresholdStep dom spent) (sent, ems)).2 := by
  induction ths generalizing sent ems with
  | nil => exact Or.inl h
  | cons t tl ih =>
    simp only [List.foldl] at h ⊢
    by_cases hc : (t ≤ spent ∧ t ∉ sent)
    · simp only [thresholdStep_eq_pos dom spent sent ems t hc] at h ⊢
      rcases ih (sent ++ [t]) (ems ++ [(dom, t)]) h with hin | hem
      · rcases List.mem_append.mp hin with hin | hin
        · exact Or.inl hin
        · right
          have ht : θ = t := by simpa using hin
          subst ht
          exact thrFold_ems_mono dom spent tl _ _ _ (by simp)
      · exact Or.inr hem
    · simp only [thresholdStep_eq_neg dom spent sent ems t hc] at h ⊢
      exact ih sent ems h

theorem thrFold_complete (dom : String) (spent : Int) (ths : List Int)
    (sent : List Int) (ems : List (String × Int)) (θ : Int)
    (hmem : θ ∈ ths) (hle : θ ≤ spent) :
    θ ∈ (ths.foldl (thresholdStep dom spent) (sent, ems)).1 := by
  induction ths generalizing sent ems with
  | nil => cases hmem
  | cons t tl ih =>
    simp only [List.foldl]
    by_cases hc : (t ≤ spent ∧ t ∉ sent)
    · simp only [thresholdStep_eq_pos dom spent sent ems t hc]
      rcases List.mem_cons.mp hmem with ht | htl
      · subst ht
        exact thrFold_sent_mono_mem dom spent tl _ _ θ (by simp)
      · exact ih (sent ++ [t]) (ems ++ [(dom, t)]) htl
    · simp only [thresholdStep_eq_neg dom spent sent ems t hc]
      rcases List.mem_cons.mp hmem with ht | htl
      · subst ht
        have hs : θ ∈ sent := by
          by_contra hns
          exact hc ⟨hle, hns⟩
        exact thrFold_sent_mono_mem dom spent tl _ _ θ hs
      · exact ih sent ems htl

theorem actFold_ems_mono (ths : List Int) (acts : List ActivityRow) (tr : Tracker)
    (ems : List (String × Int)) (x : String × Int) (h : x ∈ ems) :
    x ∈ (acts.foldl (activityStep ths) (tr, ems)).2 := by
  induction acts generalizing tr ems with
  | nil => exact h
  | cons a tl ih =>
    simp only [List.foldl, activityStep]
    exact ih _ _ (thrFold_ems_mono a.domain a.timeSpent ths (getSent tr a.domain) ems x h)

theorem actFold_sent_mono_mem (ths : List Int) (acts : List ActivityRow) (tr : Tracker)
    (ems : List (String × Int)) (d : String) (θ : Int) (h : θ ∈ getSent tr d) :
    θ ∈ getSent ((acts.foldl (activityStep ths) (tr, ems)).1) d := by
  induction acts generalizing tr ems with
  | nil => exact h
  | cons a tl ih =>
    simp only [List.foldl, activityStep]
    by_cases hd : d = a.domain
    · subst hd
      refine ih _ _ ?_
      rw [getSent_setSent_same]
      exact thrFold_sent_mono_mem a.domain a.timeSpent ths (getSent tr a.domain) ems θ h
    · refine ih _ _ ?_
      rw [getSent_setSent_other _ _ _ _ hd]
      exact h

theorem actFold_complete (ths : List Int) (acts : List ActivityRow) (tr : Tracker)
    (ems : List (String × Int)) (d : String) (θ : Int) (a : ActivityRow)
    (ha : a ∈ acts) (had : a.domain = d) (hths : θ ∈ ths) (hle : θ ≤ a.timeSpent) :
    θ ∈ getSent ((acts.foldl (activityStep ths) (tr, ems)).1) d ∧
    ((d, θ) ∈ (acts.foldl (activityStep ths) (tr, ems)).2 ∨ θ ∈ getSent tr d) := by
  subst had
  induction acts generalizing tr ems with
  | nil => cases ha
  | cons a0 tl ih =>
    simp only [List.foldl, activityStep]
    rcases List.mem_cons.mp ha with ha0 | hatl
    · subst ha0
      have hin := thrFold_complete a.domain a.timeSpent ths (getSent tr a.domain) ems θ
        hths hle
      constructor
      · refine actFold_sent_mono_mem ths tl _ _ a.domain θ ?_
        rw [getSent_setSent_same]
        exact hin
      · rcases thrFold_new_sent_emitted a.domain a.timeSpent ths (getSent tr a.domain)
            ems θ hin with hs | he
        · exact Or.inr hs
        · exact Or.inl (actFold_ems_mono ths tl _ _ (a.domain, θ) he)
    · have ihh := ih (setSent tr a0.domain
          (ths.foldl (thresholdStep a0.domain a0.timeSpent) (getSent tr a0.domain, ems)).1)
        (ths.foldl (thresholdStep a0.domain a0.timeSpent) (getSent tr a0.domain, ems)).2
        hatl
      refine ⟨ihh.1, ?_⟩
      rcases ihh.2 with he | hs
      · exact Or.inl he
      · by_cases hda : a.domain = a0.domain
        · have hs2 : θ ∈ (ths.foldl (thresholdStep a0.domain a0.timeSpent)
              (getSent tr a0.domain, ems)).1 := by
            rw [hda] at hs
            rwa [getSent_setSent_same] at hs
          rcases thrFold_new_sent_emitted a0.domain a0.timeSpent ths
              (getSent tr a0.domain) ems θ hs2 with hs3 | he3
          · right
            rw [hda]
            exact hs3
          · left
            have he4 : (a.domain, θ) ∈ (ths.foldl (thresholdStep a0.domain a0.timeSpent)
                (getSent tr a0.domain, ems)).2 := by
              rw [hda]
              exact he3
            exact actFold_ems_mono ths tl _ _ (a.domain, θ) he4
        · rw [getSent_setSent_other _ _ _ _ hda] at hs
          exact Or.inr hs

theorem runChecks_at_most_once (inputs : List (Option SettingsModel × List ActivityRow))
    (tr : Tracker) (d : String) (θ : Int) :
    ((runChecks inputs tr).2).count (d, θ) +
      (if memT tr d θ = true then 1 else 0) ≤ 1 := by
  simp only [memT_true_iff]
  have h := runChecks_count_aux inputs d θ tr []
  have h2 : (List.count (d, θ) []) +
      (if θ ∈ getSent ((runChecks inputs tr).1) d then 1 else 0) ≤ 1 := by
    by_cases hx : θ ∈ getSent ((runChecks inputs tr).1) d <;> simp [hx]
  exact le_trans h h2

theorem rollover_clears_tracker (off : Int) (rOk mOk : Bool) (now : Int)
    (sess : Session) (db : DBState) (tr : Tracker) (dom : String) (st sd : Int)
    (hdom : sess.domain = some dom) (hdne : dom ≠ "")
    (hst : sess.startTime = some st) (hstne : st ≠ 0)
    (hday : sess.sessionDate = some sd) (hsd : sd ≠ getTodayDate now) :
    (saveCurrentSession off rOk mOk now false sess db tr).2.2 = [] := by
  by_cases hroll : (0 < (rolloverMidnight off (getTodayDate now) -
      sess.startTime.getD 0).fdiv 1000 ∧ rOk = true)
  · by_cases hE : (now - rolloverMidnight off (getTodayDate now)).fdiv 1000 < 1
    · simp [saveCurrentSession, hdom, hst, hday, hdne, hstne, jsTruthyStr, jsTruthyInt,
        hsd, hroll, hE]
    by_cases hm : mOk = true
    · simp [saveCurrentSession, hdom, hst, hday, hdne, hstne, jsTruthyStr, jsTruthyInt,
        hsd, hroll, hE, hm]
    · simp [saveCurrentSession, hdom, hst, hday, hdne, hstne, jsTruthyStr, jsTruthyInt,
        hsd, hroll, hE, hm]
  · by_cases hE : (now - rolloverMidnight off (getTodayDate now)).fdiv 1000 < 1
    · simp [saveCurrentSession, hdom, hst, hday, hdne, hstne, jsTruthyStr, jsTruthyInt,
        hsd, hroll, hE]
    by_cases hm : mOk = true
    · simp [saveCurrentSession, hdom, hst, hday, hdne, hstne, jsTruthyStr, jsTruthyInt,
        hsd, hroll, hE, hm]
    · simp [saveCurrentSession, hdom, hst, hday, hdne, hstne, jsTruthyStr, jsTruthyInt,
        hsd, hroll, hE, hm]

theorem enable_fires_if_unnotified (payload : SettingsModel) (acts : List ActivityRow)
    (tr : Tracker) (ths : List Int) (d : String) (θ : Int) (a : ActivityRow)
    (hen : payload.reminderEnabled = true)
    (hths : payload.reminderThresholds = some ths)
    (ha : a ∈ acts) (had : a.domain = d) (hθ : θ ∈ ths) (hle : θ ≤ a.timeSpent)
    (hnot : memT tr d θ = false) :
    (d, θ) ∈ (handleUpdateSettings payload acts tr).2 ∧
    memT (handleUpdateSettings payload acts tr).1 d θ = true := by
  have hc := actFold_complete ths acts tr [] d θ a ha had hθ hle
  have hred : handleUpdateSettings payload acts tr =
      acts.foldl (activityStep ths) (tr, []) := by
    simp [handleUpdateSettings, hen, checkNotif, hths]
  rw [hred]
  constructor
  · rcases hc.2 with he | hs
    · exact he
    · exfalso
      have := (memT_true_iff tr d θ).mpr hs
      rw [hnot] at this
      cases this
  · rw [memT_true_iff]
    exact hc.1

/-- C7 counterexample: freshly enabling reminders with the tracker already
holding (ex.com, 1800) and 2000 s of activity leaves the tracker exactly
as it was (not cleared) and emits nothing — the already-exceeded
threshold is skipped, not fired. -/
theorem c7_counterexample_enable_not_cleared :
    ((handleUpdateSettings ⟨true, some [1800]⟩ [⟨0, "ex.com", none, 2000, 1, 0⟩]
        [("ex.com", [1800])]).1 = [("ex.com", [1800])]) ∧
    ((handleUpdateSettings ⟨true, some [1800]⟩ [⟨0, "ex.com", none, 2000, 1, 0⟩]
        [("ex.com", [1800])]).2 = []) ∧
    ([("ex.com", [1800])] : Tracker) ≠ [] := by
  decide

/-- C7 (amended): (a) across any run of notification checks, at most one
notification is emitted per (domain, threshold) — none if it is already
recorded in the tracker; (b) a flush that crosses the day boundary clears
the notified-thresholds tracker entirely; (c) enabling reminders via
UPDATE_SETTINGS does not clear the tracker but runs a check immediately,
so a threshold already exceeded and not yet recorded today fires at once
and is recorded. -/
theorem c7_notification_guarantees :
    (∀ (inputs : List (Option SettingsModel × List ActivityRow)) (tr : Tracker)
        (d : String) (θ : Int),
      ((runChecks inputs tr).2).count (d, θ) +
        (if memT tr d θ = true then 1 else 0) ≤ 1) ∧
    (∀ (off : Int) (rOk mOk : Bool) (now : Int) (sess : Session) (db : DBState)
        (tr : Tracker) (dom : String) (st sd : Int),
      sess.domain = some dom → dom ≠ "" → sess.startTime = some st → st ≠ 0 →
      sess.sessionDate = some sd → sd ≠ getTodayDate now →
      (saveCurrentSession off rOk mOk now false sess db tr).2.2 = []) ∧
    (∀ (payload : SettingsModel) (acts : List ActivityRow) (tr : Tracker)
        (ths : List Int) (d : String) (θ : Int) (a : ActivityRow),
      payload.reminderEnabled = true → payload.reminderThresholds = some ths →
      a ∈ acts → a.domain = d → θ ∈ ths → θ ≤ a.timeSpent → memT tr d θ = false →
      (d, θ) ∈ (handleUpdateSettings payload acts tr).2 ∧
      memT (handleUpdateSettings payload acts tr).1 d θ = true) :=
  ⟨runChecks_at_most_once,
   fun off rOk mOk now sess db tr dom st sd h1 h2 h3 h4 h5 h6 =>
     rollover_clears_tracker off rOk mOk now sess db tr dom st sd h1 h2 h3 h4 h5 h6,
   fun payload acts tr ths d θ a h1 h2 h3 h4 h5 h6 h7 =>
     enable_fires_if_unnotified payload acts tr ths d θ a h1 h2 h3 h4 h5 h6 h7⟩

/-- C7 witness: (a) one check over a 2000 s row with threshold 1800 from
an empty tracker emits at most once; (b) the concrete midnight-crossing
flush empties a nonempty tracker; (c) enabling reminders with 2000 s
already recorded and an empty tracker fires (ex.com, 1800) immediately
and records it. -/
theorem c7_notification_guarantees_witness :
    (((runChecks [(some ⟨true, some [1800]⟩, [⟨0, "ex.com", none, 2000, 1, 0⟩])]
        []).2).count ("ex.com", 1800) +
      (if memT [] "ex.com" 1800 = true then 1 else 0) ≤ 1) ∧
    ((saveCurrentSession 0 true true 86410000 false
        ⟨some "a.com", some 1000, none, true, some 0⟩ ⟨[], fun _ => none⟩
        [("ex.com", [1800])]).2.2 = []) ∧
    (("ex.com", (1800 : Int)) ∈
        (handleUpdateSettings ⟨true, some [1800]⟩ [⟨0, "ex.com", none, 2000, 1, 0⟩]
          []).2 ∧
      memT (handleUpdateSettings ⟨true, some [1800]⟩
          [⟨0, "ex.com", none, 2000, 1, 0⟩] []).1 "ex.com" 1800 = true) := by
  refine ⟨c7_notification_guarantees.1 _ _ _ _, ?_, ?_⟩
  · exact c7_notification_guarantees.2.1 0 true true 86410000
      ⟨some "a.com", some 1000, none, true, some 0⟩ ⟨[], fun _ => none⟩
      [("ex.com", [1800])] "a.com" 1000 0 rfl (by decide) rfl (by decide) rfl (by decide)
  · exact c7_notification_guarantees.2.2 ⟨true, some [1800]⟩
      [⟨0, "ex.com", none, 2000, 1, 0⟩] [] [1800] "ex.com" 1800
      ⟨0, "ex.com", none, 2000, 1, 0⟩ rfl rfl (by decide) rfl (by decide) (by decide)
      (by decide)

end Clarity
